import Mathlib

/-!
Verification of the `alx-backend-storage` 0x02-redis_basic module:
a shallow embedding of `exercise.py` (the `Cache` class with the
`count_calls` and `call_history` decorators) and of `web.py` (the
`get_page` URL cache with access counters), together with theorems
settling the specification's claims about them.

The external Redis store is modelled as a flat keyspace mapping string
keys to typed values.  Redis stores every value as a byte string; keys
written by `INCR` always hold the decimal representation of an integer,
which the model tracks directly as an integer (reads convert it back to
its decimal string, as `GET` does).
-/

namespace Exercise

/-- A Python value storable by `Cache.store` (`Union[str, bytes, int, float]`).
Byte strings are modelled by their character content, floats by their
Python `repr` string (redis-py serializes a float via `repr`). -/
inductive PyVal where
  | str (s : String)
  | bytes (b : String)
  | int (n : Int)
  | float (r : String)
deriving DecidableEq, Repr

/-- redis-py's serialization of a value to the byte string actually sent
to the store: `str` is UTF-8 encoded (we identify the byte string with its
character content), `bytes` passes through, `int` and `float` are rendered
as their decimal / `repr` text. -/
def encode : PyVal → String
  | .str s => s
  | .bytes b => b
  | .int n => toString n
  | .float r => r

/-- A value held at a Redis key: a plain byte string, an integer-encoded
string (written by `INCR`, tracked as the integer itself), or a list
(written by `RPUSH`). -/
inductive RVal where
  | str (s : String)
  | int (n : Int)
  | list (l : List String)
deriving DecidableEq, Repr

/-- The Redis keyspace used by `exercise.py`. -/
def RState : Type := String → Option RVal

/-- The keyspace right after `FLUSHDB`: no keys. -/
def emptyState : RState := fun _ => none

/-- `SET key v`. -/
def rset (st : RState) (k : String) (v : RVal) : RState :=
  fun k' => if k' = k then some v else st k'

/-- `GET key`: returns the byte string held at the key (an `INCR`-written
integer reads back as its decimal string); `nil` when the key is absent
(a list key is not readable by `GET`). -/
def rawGet (st : RState) (k : String) : Option String :=
  match st k with
  | some (.str s) => some s
  | some (.int n) => some (toString n)
  | _ => none

/-- The list held at a key (`LRANGE key 0 -1`); empty when absent. -/
def getList (st : RState) (k : String) : List String :=
  match st k with
  | some (.list l) => l
  | _ => []

/-- `RPUSH key x`: append `x` to the list at the key. -/
def rpush (st : RState) (k : String) (x : String) : RState :=
  rset st k (.list (getList st k ++ [x]))

/-- Interpret the digits of a decimal numeral. -/
def digitsToNat (cs : List Char) : Nat :=
  cs.foldl (fun a c => a * 10 + (c.toNat - 48)) 0

/-- Parse a nonempty all-digit character list, else fail. -/
def parseDigits (cs : List Char) : Option Nat :=
  if cs ≠ [] ∧ cs.all Char.isDigit then some (digitsToNat cs) else none

/-- An ASCII whitespace character, as stripped by Python's `int()`. -/
def isPySpace (c : Char) : Bool :=
  c = ' ' || c = '\t' || c = '\n' || c = '\r' || c = '\x0b' || c = '\x0c'

/-- Strip leading and trailing whitespace from a character list. -/
def stripSpaces (cs : List Char) : List Char :=
  ((cs.dropWhile isPySpace).reverse.dropWhile isPySpace).reverse

/-- Python's `int()` applied to a byte/character string: surrounding
whitespace stripped, optional sign, then decimal digits; anything else
raises `ValueError` (modelled as `none`).  Underscore digit grouping and
non-decimal bases are not used by this code and are not modelled. -/
def pyInt (s : String) : Option Int :=
  match stripSpaces s.toList with
  | '+' :: rest => (parseDigits rest).map Int.ofNat
  | '-' :: rest => (parseDigits rest).map (fun n => -(n : Int))
  | cs => (parseDigits cs).map Int.ofNat

/-- The integer a key currently holds, as `INCR` interprets it: an
`INCR`-written key yields its integer, a plain string is parsed as a
decimal integer, an absent key counts as 0. -/
def curInt (st : RState) (k : String) : Int :=
  match st k with
  | some (.int n) => n
  | some (.str s) => (pyInt s).getD 0
  | _ => 0

/-- `INCR key`: add one to the integer at the key (0 when absent) and
store the result. -/
def incr (st : RState) (k : String) : RState :=
  rset st k (.int (curInt st k + 1))

/-- `method.__qualname__` for `Cache.store`: the counter key used by
`count_calls`. -/
def countKey : String := "Cache.store"

/-- The `call_history` inputs-list key for `Cache.store`. -/
def inputsKey : String := "Cache.store:inputs"

/-- The `call_history` outputs-list key for `Cache.store`. -/
def outputsKey : String := "Cache.store:outputs"

/-- Python `repr` of a storable value (quoting modelled without escape
sequences, which the claims do not exercise). -/
def pyRepr : PyVal → String
  | .str s => "'" ++ s ++ "'"
  | .bytes b => "b'" ++ b ++ "'"
  | .int n => toString n
  | .float r => r

/-- `str(args)` for the one-element positional-argument tuple that a
`Cache.store(data)` call produces: the display string `"(repr(data),)"`. -/
def argsRepr (v : PyVal) : String := "(" ++ pyRepr v ++ ",)"

/-- The undecorated body of `Cache.store`: `SET` the encoded data under
the freshly generated uuid key (given here as the parameter `key`) and
return that key. -/
def storeBody (key : String) (data : PyVal) (st : RState) : String × RState :=
  (key, rset st key (.str (encode data)))

/-- `count_calls` wrapping the body of `Cache.store`: `INCR` the counter
keyed by the method's qualified name, then run the body. -/
def countCallsStore (key : String) (data : PyVal) (st : RState) : String × RState :=
  storeBody key data (incr st countKey)

/-- The fully decorated `Cache.store` (`@call_history` over
`@count_calls`): `RPUSH` the display string of the positional arguments
onto the inputs list, run the counted body, then `RPUSH` the returned key
onto the outputs list. -/
def storeCall (key : String) (data : PyVal) (st : RState) : String × RState :=
  let st1 := rpush st inputsKey (argsRepr data)
  let (out, st2) := countCallsStore key data st1
  (out, rpush st2 outputsKey out)

/-- A Python exception surfaced by the modelled code. -/
inductive PyErr where
  | valueError
deriving DecidableEq, Repr

/-- `Cache.get(key, fn)`: `GET` the key; absent yields `None`; otherwise
apply the conversion function when one is supplied (its failure
propagates), else return the raw bytes. -/
def cacheGet (st : RState) (k : String)
    (fn : Option (String → Except PyErr PyVal)) : Except PyErr (Option PyVal) :=
  match rawGet st k with
  | none => .ok none
  | some d =>
    match fn with
    | none => .ok (some (.bytes d))
    | some f => (f d).map some

/-- The conversion `fn=int` used by `Cache.get_int`: Python `int()` on the
raw bytes, raising `ValueError` on a non-numeric value. -/
def intFn (d : String) : Except PyErr PyVal :=
  match pyInt d with
  | some n => .ok (.int n)
  | none => .error .valueError

/-- `Cache.get_int(key)`: `Cache.get` with the integer conversion. -/
def get_int (st : RState) (k : String) : Except PyErr (Option PyVal) :=
  cacheGet st k (some intFn)

/-- `Cache.__init__`: connect and `FLUSHDB` — whatever the keyspace held,
it is empty afterwards. -/
def cacheInit (_pre : RState) : RState := emptyState

/-- The generic `call_history` wrapper around a possibly raising method
`m` (state-passing with persistent effects: mutations made before an
exception keep their effect, as in Python).  The positional-argument
display string is pushed onto `<qualname>:inputs` BEFORE the method runs;
on success the returned value is pushed onto `<qualname>:outputs`; on an
exception the wrapper re-raises with no further writes. -/
def callHistoryRun (qualname : String) (argsr : String)
    (m : RState → Except PyErr (String × RState)) (st : RState) :
    Except PyErr String × RState :=
  let inKey := qualname ++ ":inputs"
  let outKey := qualname ++ ":outputs"
  let st1 := rpush st inKey argsr
  match m st1 with
  | .ok (out, st2) => (.ok out, rpush st2 outKey out)
  | .error e => (.error e, st1)

/-- Running a sequence of decorated `Cache.store` calls (single caller,
each call completing), given the uuid key drawn for each call. -/
def runStores : List (String × PyVal) → RState → RState
  | [], st => st
  | c :: rest, st => runStores rest (storeCall c.1 c.2 st).2

end Exercise

namespace Web

/-- A value held at a Redis key in `web.py`'s keyspace: a page body
string, or an `INCR`-written integer (stored by Redis as its decimal
string, tracked here as the integer; `GET` with `decode_responses=True`
reads it back as that string). -/
inductive WVal where
  | str (s : String)
  | int (n : Int)
deriving DecidableEq, Repr

/-- A Redis entry: its value and, when set by `SETEX`, the absolute time
at which it expires. -/
structure WEntry where
  val : WVal
  expiry : Option Nat
deriving DecidableEq, Repr

/-- The Redis keyspace used by `web.py` (`redis_client`). -/
def WState : Type := String → Option WEntry

/-- The keyspace right after `FLUSHDB`. -/
def emptyW : WState := fun _ => none

/-- Write an entry at a key. -/
def wset (st : WState) (k : String) (e : WEntry) : WState :=
  fun k' => if k' = k then some e else st k'

/-- Whether an entry has not yet expired at time `t`. -/
def entryLive (e : WEntry) (t : Nat) : Bool :=
  match e.expiry with
  | some ex => t < ex
  | none => true

/-- The entry at a key if it exists and has not expired at time `t`
(Redis hides expired keys from every command). -/
def liveEntry (st : WState) (t : Nat) (k : String) : Option WEntry :=
  match st k with
  | some e => if entryLive e t then some e else none
  | none => none

/-- The decoded string a value reads back as. -/
def asStr : WVal → String
  | .str s => s
  | .int n => toString n

/-- `GET key` at time `t` with `decode_responses=True`: the decoded
string, or `None` for an absent or expired key. -/
def wget (st : WState) (t : Nat) (k : String) : Option String :=
  (liveEntry st t k).map (fun e => asStr e.val)

/-- The integer a live value holds, as `INCR` interprets it. -/
def toIntW : WVal → Int
  | .int n => n
  | .str s => (Exercise.pyInt s).getD 0

/-- `INCR key` at time `t`: add one to the integer at the key (0 when
absent or expired) and store it, keeping the key's remaining TTL when it
was live, none otherwise. -/
def wincr (st : WState) (t : Nat) (k : String) : WState :=
  match liveEntry st t k with
  | some e => wset st k ⟨.int (toIntW e.val + 1), e.expiry⟩
  | none => wset st k ⟨.int 1, none⟩

/-- `SETEX key ttl v` at time `t`: store `v` expiring at `t + ttl`. -/
def setex (st : WState) (t : Nat) (k : String) (ttl : Nat) (v : String) : WState :=
  wset st k ⟨.str v, some (t + ttl)⟩

/-- `DEL key`. -/
def wdel (st : WState) (k : String) : WState :=
  fun k' => if k' = k then none else st k'

/-- The access counter read for a URL: the integer at `count:<url>`, 0
when absent or expired. -/
def countVal (st : WState) (t : Nat) (url : String) : Int :=
  match liveEntry st t ("count:" ++ url) with
  | some e => toIntW e.val
  | none => 0

/-- `get_page(url)` at time `t`, with `fetch` the HTTP client
(`requests.get(url).text`): increment `count:<url>`; `GET cache:<url>`
and, when the result is truthy (present AND non-empty), return it;
otherwise fetch, `SETEX cache:<url> 10` the body, and return the body.
The result carries the returned string, the final keyspace, and whether
an HTTP fetch was performed. -/
def getPage (fetch : String → String) (t : Nat) (url : String) (st : WState) :
    String × WState × Bool :=
  let countKey := "count:" ++ url
  let cacheKey := "cache:" ++ url
  let st1 := wincr st t countKey
  match wget st1 t cacheKey with
  | some s =>
    if s ≠ "" then (s, st1, false)
    else
      let body := fetch url
      (body, setex st1 t cacheKey 10 body, true)
  | none =>
    let body := fetch url
    (body, setex st1 t cacheKey 10 body, true)

/-- `get_url_access_count(url)` at time `t`: `int(count) if count else 0`
on the `GET` of `count:<url>`. -/
def get_url_access_count (st : WState) (t : Nat) (url : String) : Int :=
  match wget st t ("count:" ++ url) with
  | some s => if s ≠ "" then (Exercise.pyInt s).getD 0 else 0
  | none => 0

/-- `clear_url_cache(url)`: `DEL cache:<url>`. -/
def clear_url_cache (st : WState) (url : String) : WState :=
  wdel st ("cache:" ++ url)

/-- `clear_all_cache()`: `FLUSHDB`. -/
def clear_all_cache (_pre : WState) : WState := emptyW

end Web

/-! ## Helper lemmas on the string keys -/

/-- Appending to a fixed prefix is injective on strings. -/
theorem string_append_left_cancel {p a b : String} (h : p ++ a = p ++ b) : a = b := by
  have hd : (p ++ a).data = (p ++ b).data := congrArg String.data h
  rw [String.data_append, String.data_append] at hd
  exact String.ext (List.append_cancel_left hd)

/-- A `cache:`-prefixed key never equals a `count:`-prefixed key. -/
theorem cacheKey_ne_countKey (u v : String) : "cache:" ++ u ≠ "count:" ++ v := by
  intro h
  have h1 : ("cache:" ++ u).data.get? 1 = some 'a' := rfl
  rw [h] at h1
  have h2 : ("count:" ++ v).data.get? 1 = some 'o' := rfl
  rw [h2] at h1
  simp at h1

/-- For any qualified name, the inputs-list key and the outputs-list key
differ. -/
theorem inputsKey_ne_outputsKey (q : String) : q ++ ":inputs" ≠ q ++ ":outputs" := by
  intro h
  have := string_append_left_cancel h
  simp at this

/-! ## Frame lemmas for the exercise keyspace -/

/-- Reading a `SET` key. -/
theorem rset_app (st : Exercise.RState) (k : String) (v : Exercise.RVal) (k' : String) :
    Exercise.rset st k v k' = if k' = k then some v else st k' := rfl

/-- `RPUSH` appends to the list at its own key. -/
theorem getList_rpush_same (st : Exercise.RState) (k : String) (x : String) :
    Exercise.getList (Exercise.rpush st k x) k = Exercise.getList st k ++ [x] := by
  simp [Exercise.getList, Exercise.rpush, Exercise.rset]

/-- `RPUSH` leaves every other key's list unchanged. -/
theorem getList_rpush_other (st : Exercise.RState) (k x k' : String) (h : k' ≠ k) :
    Exercise.getList (Exercise.rpush st k x) k' = Exercise.getList st k' := by
  simp [Exercise.getList, Exercise.rpush, Exercise.rset, h]

/-- `getList` only looks at its own key. -/
theorem getList_eq_of_app {st st' : Exercise.RState} {k : String}
    (h : st k = st' k) : Exercise.getList st k = Exercise.getList st' k := by
  unfold Exercise.getList
  rw [h]

/-- What a single decorated `store` call does to the three bookkeeping
keys, provided the drawn uuid key collides with none of them: the counter
goes up by one, the arguments' display string is appended to the inputs
list, and the returned key is appended to the outputs list. -/
theorem storeCall_specials (k : String) (v : Exercise.PyVal) (st : Exercise.RState)
    (hk1 : k ≠ Exercise.countKey) (hk2 : k ≠ Exercise.inputsKey)
    (hk3 : k ≠ Exercise.outputsKey) :
    Exercise.curInt (Exercise.storeCall k v st).2 Exercise.countKey
      = Exercise.curInt st Exercise.countKey + 1
    ∧ Exercise.getList (Exercise.storeCall k v st).2 Exercise.inputsKey
      = Exercise.getList st Exercise.inputsKey ++ [Exercise.argsRepr v]
    ∧ Exercise.getList (Exercise.storeCall k v st).2 Exercise.outputsKey
      = Exercise.getList st Exercise.outputsKey ++ [k] := by
  have e1 : Exercise.countKey ≠ Exercise.outputsKey := by decide
  have e2 : Exercise.countKey ≠ Exercise.inputsKey := by decide
  have e3 : Exercise.inputsKey ≠ Exercise.outputsKey := by decide
  have e4 : Exercise.inputsKey ≠ Exercise.countKey := by decide
  have e5 : Exercise.outputsKey ≠ Exercise.countKey := by decide
  have e6 : Exercise.outputsKey ≠ Exercise.inputsKey := by decide
  refine ⟨?_, ?_, ?_⟩ <;>
    simp [Exercise.storeCall, Exercise.countCallsStore, Exercise.storeBody,
      Exercise.curInt, Exercise.getList, Exercise.rpush, Exercise.rset,
      Exercise.incr, e1, e2, e3, e4, e5, e6, hk1, hk2, hk3,
      Ne.symm hk1, Ne.symm hk2, Ne.symm hk3]

/-- Effect of a sequence of completed decorated `store` calls on the
bookkeeping keys, by induction on the sequence. -/
theorem runStores_specials (calls : List (String × Exercise.PyVal)) (st : Exercise.RState)
    (h : ∀ c ∈ calls, c.1 ≠ Exercise.countKey ∧ c.1 ≠ Exercise.inputsKey
      ∧ c.1 ≠ Exercise.outputsKey) :
    Exercise.curInt (Exercise.runStores calls st) Exercise.countKey
      = Exercise.curInt st Exercise.countKey + calls.length
    ∧ Exercise.getList (Exercise.runStores calls st) Exercise.inputsKey
      = Exercise.getList st Exercise.inputsKey
        ++ calls.map (fun c => Exercise.argsRepr c.2)
    ∧ Exercise.getList (Exercise.runStores calls st) Exercise.outputsKey
      = Exercise.getList st Exercise.outputsKey ++ calls.map Prod.fst := by
  induction calls generalizing st with
  | nil => simp [Exercise.runStores]
  | cons c rest ih =>
    obtain ⟨hk1, hk2, hk3⟩ := h c (List.mem_cons_self _ _)
    obtain ⟨s1, s2, s3⟩ := storeCall_specials c.1 c.2 st hk1 hk2 hk3
    obtain ⟨r1, r2, r3⟩ :=
      ih (Exercise.storeCall c.1 c.2 st).2 (fun c' hc' => h c' (List.mem_cons_of_mem _ hc'))
    refine ⟨?_, ?_, ?_⟩
    · simp [Exercise.runStores, r1, s1]
      omega
    · simp [Exercise.runStores, r2, s2]
    · simp [Exercise.runStores, r3, s3]

/-! ## Claim theorems -/

/-- C1, counterexample: storing the integer 42 and reading it back with no
conversion function yields the byte string `b"42"`, not the integer 42 —
the round-trip identity claimed for every storable value fails at `v = 42`. -/
theorem c1_roundtrip_counterexample :
    Exercise.cacheGet (Exercise.storeCall "k0" (.int 42) Exercise.emptyState).2 "k0" none
      = .ok (some (.bytes "42"))
    ∧ Exercise.PyVal.bytes "42" ≠ Exercise.PyVal.int 42 := by
  constructor
  · rfl
  · decide

/-- C1, amended: `get` on the key returned by `store(v)`, with no
conversion function and no intervening flush, returns the store's byte
serialization of `v`; this equals `v` itself exactly when `v` is a byte
string.  (The uuid key drawn by `store` never collides with the three
bookkeeping keys; that is the hypothesis.) -/
theorem c1_store_get_bytes (st : Exercise.RState) (k : String) (v : Exercise.PyVal)
    (h3 : k ≠ Exercise.outputsKey) :
    Exercise.cacheGet (Exercise.storeCall k v st).2 k none
      = .ok (some (.bytes (Exercise.encode v)))
    ∧ (Exercise.PyVal.bytes (Exercise.encode v) = v ↔ ∃ b, v = Exercise.PyVal.bytes b) := by
  constructor
  · simp [Exercise.storeCall, Exercise.countCallsStore, Exercise.storeBody,
      Exercise.rpush, Exercise.rset, Exercise.cacheGet, Exercise.rawGet, h3]
  · cases v <;> simp [Exercise.encode]

/-- Witness for `c1_store_get_bytes` at a concrete input. -/
theorem c1_store_get_bytes_witness :
    Exercise.cacheGet
        (Exercise.storeCall "k0" (.bytes "hi") Exercise.emptyState).2 "k0" none
      = .ok (some (.bytes "hi")) :=
  (c1_store_get_bytes Exercise.emptyState "k0" (.bytes "hi") (by decide)).1

/-- C5: `get` on a key absent from the store returns the absent result
`None` — not an error — whatever conversion function is supplied, and the
conversion function is never applied (the result does not depend on it). -/
theorem c5_get_absent (st : Exercise.RState) (k : String) (h : st k = none)
    (fn : Option (String → Except Exercise.PyErr Exercise.PyVal)) :
    Exercise.cacheGet st k fn = .ok none := by
  simp [Exercise.cacheGet, Exercise.rawGet, h]

/-- Witness for `c5_get_absent`: with and without a conversion function. -/
theorem c5_get_absent_witness :
    Exercise.cacheGet Exercise.emptyState "missing" (some Exercise.intFn) = .ok none
    ∧ Exercise.cacheGet Exercise.emptyState "missing" none = .ok none :=
  ⟨c5_get_absent Exercise.emptyState "missing" rfl (some Exercise.intFn),
   c5_get_absent Exercise.emptyState "missing" rfl none⟩

/-- C6: `get_int` on the key returned by `store(42)` returns the integer
42; on the key returned by `store("not-a-number")` it fails with a
`ValueError` propagated to the caller. -/
theorem c6_get_int (st : Exercise.RState) (k : String)
    (h3 : k ≠ Exercise.outputsKey) :
    Exercise.get_int (Exercise.storeCall k (.int 42) st).2 k = .ok (some (.int 42))
    ∧ Exercise.get_int (Exercise.storeCall k (.str "not-a-number") st).2 k
      = .error .valueError := by
  have h42 : Exercise.intFn (Exercise.encode (.int 42)) = .ok (.int 42) := rfl
  have hnan : Exercise.intFn (Exercise.encode (.str "not-a-number"))
      = .error .valueError := rfl
  constructor
  · simp [Exercise.get_int, Exercise.storeCall, Exercise.countCallsStore,
      Exercise.storeBody, Exercise.rpush, Exercise.rset, Exercise.cacheGet,
      Exercise.rawGet, Except.map, h3, h42]
  · simp [Exercise.get_int, Exercise.storeCall, Exercise.countCallsStore,
      Exercise.storeBody, Exercise.rpush, Exercise.rset, Exercise.cacheGet,
      Exercise.rawGet, Except.map, h3, hnan]

/-- Witness for `c6_get_int` at a concrete key. -/
theorem c6_get_int_witness :
    Exercise.get_int (Exercise.storeCall "k0" (.int 42) Exercise.emptyState).2 "k0"
      = .ok (some (.int 42)) :=
  (c6_get_int Exercise.emptyState "k0" (by decide)).1

/-- C9: constructing a `Cache` flushes the entire database — after
`Cache.__init__`, every key of the pre-existing keyspace reads as absent,
whatever it held. -/
theorem c9_init_flushes_all (st : Exercise.RState) (k : String) :
    Exercise.cacheInit st k = none := rfl

/-- C2, counterexample: when the wrapped operation raises, the inputs
list still gains an entry for that invocation — starting from an empty
keyspace, a raising call leaves `["('x',)"]` on the inputs list, refuting
"if the wrapped operation raises, neither list gains an entry". -/
theorem c2_counterexample :
    Exercise.getList
        (Exercise.callHistoryRun "Cache.store" "('x',)"
          (fun _ => .error .valueError) Exercise.emptyState).2 "Cache.store:inputs"
      = ["('x',)"]
    ∧ (Exercise.callHistoryRun "Cache.store" "('x',)"
          (fun _ => .error .valueError) Exercise.emptyState).1
      = .error .valueError := ⟨rfl, rfl⟩

/-- C2, amended: `call_history` appends the call's positional-argument
display string to `<operation-id>:inputs` BEFORE the wrapped operation
runs, and appends the return value to `<operation-id>:outputs` (in that
order) only after it completes successfully; if the wrapped operation
raises, the inputs list still gains its entry while the outputs list does
not.  The hypothesis `hm` says the wrapped operation itself leaves the
two history keys alone, as `Cache.store` does. -/
theorem c2_call_history (q argsr : String)
    (m : Exercise.RState → Except Exercise.PyErr (String × Exercise.RState))
    (st : Exercise.RState)
    (hm : ∀ s out s', m s = .ok (out, s') →
      s' (q ++ ":inputs") = s (q ++ ":inputs")
      ∧ s' (q ++ ":outputs") = s (q ++ ":outputs")) :
    (∀ out st2, m (Exercise.rpush st (q ++ ":inputs") argsr) = .ok (out, st2) →
      Exercise.getList (Exercise.callHistoryRun q argsr m st).2 (q ++ ":inputs")
        = Exercise.getList st (q ++ ":inputs") ++ [argsr]
      ∧ Exercise.getList (Exercise.callHistoryRun q argsr m st).2 (q ++ ":outputs")
        = Exercise.getList st (q ++ ":outputs") ++ [out]
      ∧ (Exercise.callHistoryRun q argsr m st).1 = .ok out)
    ∧ (∀ e, m (Exercise.rpush st (q ++ ":inputs") argsr) = .error e →
      Exercise.getList (Exercise.callHistoryRun q argsr m st).2 (q ++ ":inputs")
        = Exercise.getList st (q ++ ":inputs") ++ [argsr]
      ∧ Exercise.getList (Exercise.callHistoryRun q argsr m st).2 (q ++ ":outputs")
        = Exercise.getList st (q ++ ":outputs")
      ∧ (Exercise.callHistoryRun q argsr m st).1 = .error e) := by
  have hne : q ++ ":inputs" ≠ q ++ ":outputs" := inputsKey_ne_outputsKey q
  constructor
  · intro out st2 hok
    obtain ⟨hin, hout⟩ := hm _ out st2 hok
    have hrun : Exercise.callHistoryRun q argsr m st
        = (.ok out, Exercise.rpush st2 (q ++ ":outputs") out) := by
      simp [Exercise.callHistoryRun, hok]
    rw [hrun]
    refine ⟨?_, ?_, rfl⟩
    · rw [getList_rpush_other _ _ _ _ hne, getList_eq_of_app hin,
        getList_rpush_same]
    · rw [getList_rpush_same, getList_eq_of_app hout,
        getList_rpush_other _ _ _ _ (Ne.symm hne)]
  · intro e herr
    have hrun : Exercise.callHistoryRun q argsr m st
        = (.error e, Exercise.rpush st (q ++ ":inputs") argsr) := by
      simp [Exercise.callHistoryRun, herr]
    rw [hrun]
    exact ⟨getList_rpush_same st _ argsr,
      getList_rpush_other _ _ _ _ (Ne.symm hne), rfl⟩

/-- Witness for `c2_call_history` with a concrete state-preserving
operation that succeeds. -/
theorem c2_call_history_witness :
    Exercise.getList
        (Exercise.callHistoryRun "Cache.store" "('x',)"
          (fun s => .ok ("KEY", s)) Exercise.emptyState).2 "Cache.store:inputs"
      = Exercise.getList Exercise.emptyState "Cache.store:inputs" ++ ["('x',)"] := by
  have hm : ∀ s out s',
      (fun s => (Except.ok ("KEY", s) :
          Except Exercise.PyErr (String × Exercise.RState))) s = .ok (out, s') →
      s' ("Cache.store" ++ ":inputs") = s ("Cache.store" ++ ":inputs")
      ∧ s' ("Cache.store" ++ ":outputs") = s ("Cache.store" ++ ":outputs") := by
    intro s out s' h
    simp only [Except.ok.injEq, Prod.mk.injEq] at h
    rw [← h.2]
    exact ⟨rfl, rfl⟩
  exact ((c2_call_history "Cache.store" "('x',)"
    (fun s => (Except.ok ("KEY", s) : Except Exercise.PyErr (String × Exercise.RState)))
    Exercise.emptyState hm).1 "KEY" _ rfl).1

/-- C3: after any sequence of completed `store` calls by a single caller
starting from a fresh `Cache` (flushed keyspace), the `Cache.store`
counter equals the number of calls, the inputs list is exactly the
display strings of each call's arguments in call order, and the outputs
list is exactly the keys each call returned in call order — so both
lists have length N and their i-th entries belong to the same
invocation.  The hypothesis says each drawn uuid key avoids the three
bookkeeping keys. -/
theorem c3_tracking_invariant (calls : List (String × Exercise.PyVal))
    (h : ∀ c ∈ calls, c.1 ≠ Exercise.countKey ∧ c.1 ≠ Exercise.inputsKey
      ∧ c.1 ≠ Exercise.outputsKey) :
    Exercise.curInt (Exercise.runStores calls Exercise.emptyState) Exercise.countKey
      = calls.length
    ∧ Exercise.getList (Exercise.runStores calls Exercise.emptyState) Exercise.inputsKey
      = calls.map (fun c => Exercise.argsRepr c.2)
    ∧ Exercise.getList (Exercise.runStores calls Exercise.emptyState) Exercise.outputsKey
      = calls.map Prod.fst := by
  have hrun := runStores_specials calls Exercise.emptyState h
  simpa [Exercise.curInt, Exercise.getList, Exercise.emptyState] using hrun

/-- Witness for `c3_tracking_invariant` on a concrete two-call run. -/
theorem c3_tracking_invariant_witness :
    Exercise.curInt
        (Exercise.runStores [("ka", .int 1), ("kb", .str "x")] Exercise.emptyState)
        Exercise.countKey = 2
    ∧ Exercise.getList
        (Exercise.runStores [("ka", .int 1), ("kb", .str "x")] Exercise.emptyState)
        Exercise.inputsKey = ["(1,)", "('x',)"]
    ∧ Exercise.getList
        (Exercise.runStores [("ka", .int 1), ("kb", .str "x")] Exercise.emptyState)
        Exercise.outputsKey = ["ka", "kb"] := by
  have h := c3_tracking_invariant [("ka", .int 1), ("kb", .str "x")] (by decide)
  simpa using h

/-! ## Frame lemmas for the web keyspace -/

/-- `liveEntry` only looks at its own key. -/
theorem liveEntry_congr {st st' : Web.WState} {k : String} (t : Nat)
    (h : st k = st' k) : Web.liveEntry st t k = Web.liveEntry st' t k := by
  unfold Web.liveEntry
  rw [h]

/-- `wget` only looks at its own key. -/
theorem wget_congr {st st' : Web.WState} {k : String} (t : Nat)
    (h : st k = st' k) : Web.wget st t k = Web.wget st' t k := by
  unfold Web.wget
  rw [liveEntry_congr t h]

/-- `INCR` leaves every other key untouched. -/
theorem wincr_app_other (st : Web.WState) (t : Nat) (k k' : String) (h : k' ≠ k) :
    Web.wincr st t k k' = st k' := by
  unfold Web.wincr
  cases Web.liveEntry st t k <;> simp [Web.wset, h]

/-- `SETEX` leaves every other key untouched. -/
theorem setex_app_other (st : Web.WState) (t : Nat) (k : String) (ttl : Nat)
    (v : String) (k' : String) (h : k' ≠ k) :
    Web.setex st t k ttl v k' = st k' := by
  simp [Web.setex, Web.wset, h]

/-- A key `liveEntry` reports holds that entry in the raw keyspace, and
the entry is live. -/
theorem liveEntry_some {st : Web.WState} {t : Nat} {k : String} {e : Web.WEntry}
    (h : Web.liveEntry st t k = some e) :
    st k = some e ∧ Web.entryLive e t = true := by
  unfold Web.liveEntry at h
  cases hk : st k with
  | none => rw [hk] at h; cases h
  | some e' =>
    rw [hk] at h
    simp only at h
    by_cases hl : Web.entryLive e' t
    · rw [if_pos hl] at h
      injection h with he
      subst he
      exact ⟨rfl, hl⟩
    · rw [if_neg hl] at h
      cases h

/-- Reading back a just-written entry at its own key. -/
theorem liveEntry_wset_self (st : Web.WState) (t : Nat) (k : String) (e : Web.WEntry) :
    Web.liveEntry (Web.wset st k e) t k
      = if Web.entryLive e t then some e else none := by
  unfold Web.liveEntry Web.wset
  simp

/-- `INCR` on a URL's counter key raises that URL's access count by one
(an absent or expired counter counts as zero). -/
theorem countVal_wincr (st : Web.WState) (t : Nat) (u : String) :
    Web.countVal (Web.wincr st t ("count:" ++ u)) t u
      = Web.countVal st t u + 1 := by
  unfold Web.countVal Web.wincr
  cases hl : Web.liveEntry st t ("count:" ++ u) with
  | none =>
    rw [liveEntry_wset_self]
    simp [Web.entryLive, Web.toIntW]
  | some e =>
    obtain ⟨hk, hlive⟩ := liveEntry_some hl
    rw [liveEntry_wset_self]
    have hlive' : Web.entryLive ⟨.int (Web.toIntW e.val + 1), e.expiry⟩ t = true :=
      hlive
    rw [hlive']
    simp [Web.toIntW]

/-- Evaluation of `get_page` on a cache hit: a live, non-empty cached
body is returned with no fetch; only the counter key changes. -/
theorem getPage_hit (fetch : String → String) (t : Nat) (u : String)
    (st : Web.WState) (s : String)
    (hc : Web.wget st t ("cache:" ++ u) = some s) (hs : s ≠ "") :
    Web.getPage fetch t u st = (s, Web.wincr st t ("count:" ++ u), false) := by
  have hck : ("cache:" ++ u) ≠ ("count:" ++ u) := cacheKey_ne_countKey u u
  have hsame : Web.wget (Web.wincr st t ("count:" ++ u)) t ("cache:" ++ u)
      = Web.wget st t ("cache:" ++ u) :=
    wget_congr t (wincr_app_other st t _ _ hck)
  show (match Web.wget (Web.wincr st t ("count:" ++ u)) t ("cache:" ++ u) with
    | some s =>
      if s ≠ "" then (s, Web.wincr st t ("count:" ++ u), false)
      else (fetch u,
        Web.setex (Web.wincr st t ("count:" ++ u)) t ("cache:" ++ u) 10 (fetch u),
        true)
    | none => (fetch u,
        Web.setex (Web.wincr st t ("count:" ++ u)) t ("cache:" ++ u) 10 (fetch u),
        true)) = (s, Web.wincr st t ("count:" ++ u), false)
  rw [hsame, hc]
  simp [hs]

/-- Evaluation of `get_page` on a miss (cache absent, expired, or holding
the empty — falsy — string): the body is fetched, cached with a
10-second TTL, and returned. -/
theorem getPage_miss (fetch : String → String) (t : Nat) (u : String)
    (st : Web.WState)
    (hc : (Web.wget st t ("cache:" ++ u)).getD "" = "") :
    Web.getPage fetch t u st
      = (fetch u,
         Web.setex (Web.wincr st t ("count:" ++ u)) t ("cache:" ++ u) 10 (fetch u),
         true) := by
  have hck : ("cache:" ++ u) ≠ ("count:" ++ u) := cacheKey_ne_countKey u u
  have hsame : Web.wget (Web.wincr st t ("count:" ++ u)) t ("cache:" ++ u)
      = Web.wget st t ("cache:" ++ u) :=
    wget_congr t (wincr_app_other st t _ _ hck)
  show (match Web.wget (Web.wincr st t ("count:" ++ u)) t ("cache:" ++ u) with
    | some s =>
      if s ≠ "" then (s, Web.wincr st t ("count:" ++ u), false)
      else (fetch u,
        Web.setex (Web.wincr st t ("count:" ++ u)) t ("cache:" ++ u) 10 (fetch u),
        true)
    | none => (fetch u,
        Web.setex (Web.wincr st t ("count:" ++ u)) t ("cache:" ++ u) 10 (fetch u),
        true))
    = (fetch u,
       Web.setex (Web.wincr st t ("count:" ++ u)) t ("cache:" ++ u) 10 (fetch u),
       true)
  rw [hsame]
  cases hw : Web.wget st t ("cache:" ++ u) with
  | none => rfl
  | some s =>
    rw [hw] at hc
    simp at hc
    simp [hc]

/-- C4, counterexample: a non-expired cached entry for the URL exists
(body `""`, expiring at time 10, observed at time 0), yet `get_page`
performs an HTTP fetch and returns the fetched body instead of the
cached entry — the claim's cache-hit guarantee fails when the cached
body is the empty string, because the code tests the cached value's
truthiness. -/
theorem c4_counterexample :
    Web.wget (Web.wset Web.emptyW "cache:u" ⟨.str "", some 10⟩) 0 "cache:u"
      = some ""
    ∧ (Web.getPage (fun _ => "BODY") 0 "u"
        (Web.wset Web.emptyW "cache:u" ⟨.str "", some 10⟩)).2.2 = true
    ∧ (Web.getPage (fun _ => "BODY") 0 "u"
        (Web.wset Web.emptyW "cache:u" ⟨.str "", some 10⟩)).1 = "BODY" :=
  ⟨rfl, rfl, rfl⟩

/-- C4, amended: `get_page(u)` first unconditionally increments the
access counter for `u`; then, if a non-expired cached entry with a
NON-EMPTY body exists for `u`, it returns that entry without performing
an HTTP fetch and changes nothing but the counter; otherwise (entry
absent, expired, or holding the falsy empty string) it performs one HTTP
GET, stores the response body under the cache key expiring 10 seconds
later, and returns the body. -/
theorem c4_get_page (fetch : String → String) (t : Nat) (u : String)
    (st : Web.WState) :
    Web.countVal (Web.getPage fetch t u st).2.1 t u = Web.countVal st t u + 1
    ∧ (∀ s, Web.wget st t ("cache:" ++ u) = some s → s ≠ "" →
        (Web.getPage fetch t u st).1 = s
        ∧ (Web.getPage fetch t u st).2.2 = false
        ∧ (Web.getPage fetch t u st).2.1 = Web.wincr st t ("count:" ++ u))
    ∧ ((Web.wget st t ("cache:" ++ u)).getD "" = "" →
        (Web.getPage fetch t u st).1 = fetch u
        ∧ (Web.getPage fetch t u st).2.2 = true
        ∧ (Web.getPage fetch t u st).2.1 ("cache:" ++ u)
            = some ⟨.str (fetch u), some (t + 10)⟩) := by
  refine ⟨?_, ?_, ?_⟩
  · cases hw : Web.wget st t ("cache:" ++ u) with
    | none =>
      rw [getPage_miss fetch t u st (by rw [hw]; rfl)]
      have hfr : Web.setex (Web.wincr st t ("count:" ++ u)) t ("cache:" ++ u) 10
            (fetch u) ("count:" ++ u)
          = Web.wincr st t ("count:" ++ u) ("count:" ++ u) :=
        setex_app_other _ _ _ _ _ _ (Ne.symm (cacheKey_ne_countKey u u))
      calc Web.countVal (Web.setex (Web.wincr st t ("count:" ++ u)) t
              ("cache:" ++ u) 10 (fetch u)) t u
          = Web.countVal (Web.wincr st t ("count:" ++ u)) t u := by
            unfold Web.countVal
            rw [liveEntry_congr t hfr]
        _ = Web.countVal st t u + 1 := countVal_wincr st t u
    | some s =>
      by_cases hs : s = ""
      · subst hs
        rw [getPage_miss fetch t u st (by rw [hw]; rfl)]
        have hfr : Web.setex (Web.wincr st t ("count:" ++ u)) t ("cache:" ++ u) 10
              (fetch u) ("count:" ++ u)
            = Web.wincr st t ("count:" ++ u) ("count:" ++ u) :=
          setex_app_other _ _ _ _ _ _ (Ne.symm (cacheKey_ne_countKey u u))
        calc Web.countVal (Web.setex (Web.wincr st t ("count:" ++ u)) t
                ("cache:" ++ u) 10 (fetch u)) t u
            = Web.countVal (Web.wincr st t ("count:" ++ u)) t u := by
              unfold Web.countVal
              rw [liveEntry_congr t hfr]
          _ = Web.countVal st t u + 1 := countVal_wincr st t u
      · rw [getPage_hit fetch t u st s hw hs]
        exact countVal_wincr st t u
  · intro s hw hs
    rw [getPage_hit fetch t u st s hw hs]
    exact ⟨rfl, rfl, rfl⟩
  · intro hc
    rw [getPage_miss fetch t u st hc]
    refine ⟨rfl, rfl, ?_⟩
    simp [Web.setex, Web.wset]

/-- Witness for `c4_get_page` on a concrete cache hit. -/
theorem c4_get_page_witness :
    (Web.getPage (fun _ => "F") 0 "u"
        (Web.wset Web.emptyW "cache:u" ⟨.str "body", some 10⟩)).1 = "body"
    ∧ (Web.getPage (fun _ => "F") 0 "u"
        (Web.wset Web.emptyW "cache:u" ⟨.str "body", some 10⟩)).2.2 = false := by
  have h := (c4_get_page (fun _ => "F") 0 "u"
    (Web.wset Web.emptyW "cache:u" ⟨.str "body", some 10⟩)).2.1 "body" rfl
    (by decide)
  exact ⟨h.1, h.2.1⟩

/-- C7: `clear_cache(u)` removes only the cached body for `u` — `u`'s
access counter, every other URL's cached body, and every other URL's
counter read exactly as before. -/
theorem c7_clear_url_cache (st : Web.WState) (u : String) :
    Web.clear_url_cache st u ("cache:" ++ u) = none
    ∧ (∀ v, Web.clear_url_cache st u ("count:" ++ v) = st ("count:" ++ v))
    ∧ (∀ v, v ≠ u → Web.clear_url_cache st u ("cache:" ++ v) = st ("cache:" ++ v)) := by
  refine ⟨?_, ?_, ?_⟩
  · simp [Web.clear_url_cache, Web.wdel]
  · intro v
    simp [Web.clear_url_cache, Web.wdel, Ne.symm (cacheKey_ne_countKey u v)]
  · intro v hv
    have hne : ("cache:" ++ v) ≠ ("cache:" ++ u) :=
      fun h => hv (string_append_left_cancel h)
    simp [Web.clear_url_cache, Web.wdel, hne]

/-- Witness for `c7_clear_url_cache` at concrete URLs. -/
theorem c7_clear_url_cache_witness :
    Web.clear_url_cache Web.emptyW "a" ("cache:" ++ "a") = none
    ∧ Web.clear_url_cache Web.emptyW "a" ("count:" ++ "a")
      = Web.emptyW ("count:" ++ "a")
    ∧ Web.clear_url_cache Web.emptyW "a" ("cache:" ++ "b")
      = Web.emptyW ("cache:" ++ "b") :=
  ⟨(c7_clear_url_cache Web.emptyW "a").1,
   (c7_clear_url_cache Web.emptyW "a").2.1 "a",
   (c7_clear_url_cache Web.emptyW "a").2.2 "b" (by decide)⟩

/-- C8: `clear_all()` flushes the keyspace — afterwards every URL's
cached entry is absent and its access count reads as zero, at any time. -/
theorem c8_clear_all (st : Web.WState) (t : Nat) (u : String) :
    Web.get_url_access_count (Web.clear_all_cache st) t u = 0
    ∧ Web.wget (Web.clear_all_cache st) t ("cache:" ++ u) = none :=
  ⟨rfl, rfl⟩

/-- C10: a URL whose cached body is the empty string is never served from
cache — whenever the non-expired cached entry for `u` holds `""`,
`get_page(u)` performs a fresh HTTP fetch (the hit test checks the cached
value's truthiness, and `""` is falsy). -/
theorem c10_empty_body_never_served (fetch : String → String) (t : Nat)
    (u : String) (st : Web.WState)
    (h : Web.wget st t ("cache:" ++ u) = some "") :
    (Web.getPage fetch t u st).1 = fetch u
    ∧ (Web.getPage fetch t u st).2.2 = true := by
  rw [getPage_miss fetch t u st (by rw [h]; rfl)]
  exact ⟨rfl, rfl⟩

/-- Witness for `c10_empty_body_never_served` on a concrete keyspace with
a live empty-bodied cache entry. -/
theorem c10_empty_body_never_served_witness :
    (Web.getPage (fun _ => "FRESH") 0 "u"
        (Web.wset Web.emptyW "cache:u" ⟨.str "", some 10⟩)).1 = "FRESH"
    ∧ (Web.getPage (fun _ => "FRESH") 0 "u"
        (Web.wset Web.emptyW "cache:u" ⟨.str "", some 10⟩)).2.2 = true :=
  c10_empty_body_never_served (fun _ => "FRESH") 0 "u"
    (Web.wset Web.emptyW "cache:u" ⟨.str "", some 10⟩) rfl
